import Mathlib

/-!
A shallow embedding of the happX1 task-scheduling engine
(`internal/scheduler` in `src/cmd/main.go`, `internal/service/task.go`,
`internal/model/task.go`) together with theorems checking the
natural-language specification against it.

Conventions of the embedding:
* Go `int` fields become `Int`; database ids become `Nat`.
* Wall-clock instants are whole seconds, modelled as `Int`.
* Go `float64` division in the stats aggregator is modelled as exact
  division in `ℚ`.
* External library calls (RFC3339 time parsing, cron-expression parsing
  and next-fire-time computation, JSON and URL validation) are supplied
  through an explicit `Env` record of functions; everything the
  repository itself computes is translated directly from the source.
* One strategy attempt (`executeShell` / `executeHTTP` bounded by the
  per-attempt context) is abstracted as an `AttemptResult`: its combined
  output, its error (`none` on success) and whether the attempt's
  deadline had elapsed (`ctx.Err() == context.DeadlineExceeded`).
-/

namespace Happx1

/-- `model.TaskTypeOnce = 1`. -/
def taskTypeOnce : Int := 1

/-- `model.TaskTypeCron = 2`. -/
def taskTypeCron : Int := 2

/-- `model.ExecTypeShell = 1`. -/
def execTypeShell : Int := 1

/-- `model.ExecTypeHTTP = 2`. -/
def execTypeHTTP : Int := 2

/-- `model.Task` (internal/model/task.go). Times are whole seconds. -/
structure Task where
  id : Nat := 0
  name : String := ""
  type : Int := 0
  execType : Int := 0
  spec : String := ""
  command : String := ""
  method : String := ""
  headers : String := ""
  body : String := ""
  status : Int := 1
  lastRunTime : Int := 0
  nextRunTime : Int := 0
  timeout : Int := 0
  retryTimes : Int := 0
  retryDelay : Int := 0
  description : String := ""
  callbackURL : String := ""
  callbackMethod : String := ""
  callbackHeaders : String := ""
  callbackBody : String := ""
  deriving Repr, DecidableEq

/-- `model.TaskLog` (internal/model/task.go). -/
structure TaskLog where
  taskID : Nat := 0
  status : Int := 0
  startTime : Int := 0
  endTime : Int := 0
  duration : Int := 0
  output : String := ""
  error : String := ""
  retryCount : Int := 0
  deriving Repr, DecidableEq

/-- `model.TaskStats` (internal/model/task.go); `AvgDuration` is the one
`float64` field, modelled in `ℚ`. -/
structure TaskStats where
  taskID : Nat := 0
  totalRuns : Int := 0
  successRuns : Int := 0
  failedRuns : Int := 0
  totalDuration : Int := 0
  avgDuration : ℚ := 0
  lastSuccess : Int := 0
  lastFailure : Int := 0
  lastError : String := ""
  retryCount : Int := 0
  timeoutCount : Int := 0
  updatedAt : Int := 0
  deriving Repr, DecidableEq

/-- The outcome of one strategy attempt: what `executeShell`/`executeHTTP`
returned (`output`, `err`) and whether the attempt's deadline had elapsed
when the loop checks `ctx.Err() == context.DeadlineExceeded`. -/
structure AttemptResult where
  output : String := ""
  err : Option String := none
  timedOut : Bool := false
  deriving Repr, DecidableEq

/-- `leadsList sub l` holds when `sub` is a leading segment of `l`
(helper for the model of Go `strings.Contains`). -/
def leadsList : List Char → List Char → Bool
  | [], _ => true
  | _ :: _, [] => false
  | a :: as, b :: bs => a = b && leadsList as bs

/-- `containsList sub l` holds when `sub` occurs contiguously in `l`. -/
def containsList : List Char → List Char → Bool
  | sub, [] => leadsList sub []
  | sub, b :: bs => leadsList sub (b :: bs) || containsList sub bs

/-- Model of Go `strings.Contains s sub`. -/
def strContains (s sub : String) : Bool :=
  containsList sub.data s.data

/-- The marker the stats aggregator greps for
(`strings.Contains(taskLog.Error, "任务执行超时")`). -/
def timeoutMarker : String := "任务执行超时"

/-- The error text substituted for a timed-out attempt:
`fmt.Errorf("任务执行超时（%d秒）", task.Timeout)`. -/
def timeoutMsg (timeout : Int) : String :=
  timeoutMarker ++ "（" ++ toString timeout ++ "秒）"

/-- Number of iterations of Go `for i := 0; i <= retryTimes; i++`. -/
def attemptsFor (retryTimes : Int) : Nat := (retryTimes + 1).toNat

/-- The error the retry loop keeps for a failed attempt: the raw error,
or the timeout message when the attempt's deadline had elapsed
(`if ctx.Err() == context.DeadlineExceeded` in `ExecuteTask`). -/
def classifyErr (task : Task) (r : AttemptResult) : String :=
  if r.timedOut then timeoutMsg task.timeout else r.err.getD ""

/-- The body of `ExecuteTask`'s retry loop (src/cmd/main.go lines
175–209), carried out on attempt index `i` with `rem` iterations left
and the loop variables `output`, `err`, `retryCount` accumulated so far.
On success the loop breaks keeping the accumulated `retryCount`; on
failure `err` is (re)classified and `taskLog.RetryCount = i` recorded. -/
def runAttemptsAux (task : Task) (strategy : Nat → AttemptResult) :
    Nat → Nat → String → Option String → Int → String × Option String × Int
  | _, 0, output, err, rc => (output, err, rc)
  | i, Nat.succ rem, _, _, rc =>
    let r := strategy i
    match r.err with
    | none => (r.output, none, rc)
    | some _ =>
      runAttemptsAux task strategy (i + 1) rem r.output
        (some (classifyErr task r)) (Int.ofNat i)

/-- The whole retry loop of `ExecuteTask`: returns the final
`(output, err, taskLog.RetryCount)` triple. -/
def runAttempts (task : Task) (strategy : Nat → AttemptResult) :
    String × Option String × Int :=
  runAttemptsAux task strategy 0 (attemptsFor task.retryTimes) "" none 0

/-- One entry of the `robfig/cron` registry: `AddFunc` hands out entry
ids sequentially; the closure belongs to the task registered
(`taskID`); `next` is the next fire time the library computed for the
entry's schedule. -/
structure CronEntry where
  id : Nat
  taskID : Nat
  next : Int
  deriving Repr, DecidableEq

/-- The observable state of the scheduler and its store: the `tasks`
table (with the auto-increment counter), the `task_logs` and
`task_stats` tables, the cron registry (`s.cron`), and the set of task
ids whose one-shot goroutine (`go func(){ time.Sleep(delay);
s.ExecuteTask(task) }`) has been launched but not yet fired. -/
structure SchedState where
  tasks : List Task := []
  nextTaskID : Nat := 1
  logs : List TaskLog := []
  stats : List TaskStats := []
  entries : List CronEntry := []
  nextEntryID : Nat := 1
  pendingOnce : List Nat := []
  deriving Repr, DecidableEq

/-- External-library behaviour the engine consumes: the current clock,
`time.Parse(time.RFC3339, ·)` (`none` on parse error, else the parsed
instant), the `cron.WithSeconds` parser used by `cron.AddFunc` (`none`
on parse error, else the entry's next fire time), `utils.ParseCron`
(= `cron.ParseStandard`) success, JSON-object validity of a header
string, `url.Parse` success, and the callback-template variable check
(a regex scan over the external `regexp` library). -/
structure Env where
  now : Int := 0
  parseRFC3339 : String → Option Int := fun _ => none
  cronNext : String → Option Int := fun _ => none
  cronStandardOk : String → Bool := fun _ => false
  jsonValid : String → Bool := fun _ => false
  urlParseOk : String → Bool := fun _ => true
  templateVarsOk : String → Bool := fun _ => true

/-- Errors returned by `Scheduler.AddTask`, one per `fmt.Errorf` site. -/
inductive AddErr
  | dupName (name : String)
  | createFailed
  | parseTimeFailed
  | timeExpired
  | badCronSpec
  | badTaskType (t : Int)
  deriving Repr, DecidableEq

/-- Errors returned by the `TaskService` layer, one per `fmt.Errorf`
site of `CreateTask`/`UpdateTask` (validation sites shared verbatim by
both functions), plus the wrapped scheduler error. -/
inductive SvcErr
  | badTaskType (t : Int)
  | badExecType (t : Int)
  | emptyShellCommand
  | emptyHTTPURL
  | badHeaders
  | badTimeFormat
  | timeBeforeNow
  | badCronExpr
  | badCallbackURL
  | badCallbackMethod (m : String)
  | badCallbackHeaders
  | badCallbackVar
  | createFailed
  | notFound
  | saveFailed
  | schedulerAdd (e : AddErr)
  deriving Repr, DecidableEq

/-- `db.Model(&model.Task{}).Where("name = ?", name).Count(&count)`. -/
def countByName (st : SchedState) (name : String) : Nat :=
  (st.tasks.filter (fun t => t.name = name)).length

/-- `db.Create(task)` on the `tasks` table: fails on the `unique` index
over `name`; a zero id is filled from the auto-increment counter. -/
def dbCreate (st : SchedState) (task : Task) :
    Except Unit (Task × SchedState) :=
  if st.tasks.any (fun t => t.name = task.name) then .error ()
  else
    let task' := if task.id = 0 then { task with id := st.nextTaskID } else task
    .ok (task', { st with
      tasks := st.tasks ++ [task'],
      nextTaskID := if task.id = 0 then st.nextTaskID + 1 else st.nextTaskID })

/-- `db.Save(task)`: an UPDATE keyed on the primary key; fails when the
`unique` index over `name` would be violated by a different row. -/
def dbSave (st : SchedState) (task : Task) : Except Unit SchedState :=
  if st.tasks.any (fun t => t.id ≠ task.id ∧ t.name = task.name) then .error ()
  else .ok { st with
    tasks := st.tasks.map (fun t => if t.id = task.id then task else t) }

/-- `Scheduler.AddTask` (src/cmd/main.go lines 107–161): duplicate-name
check against the store, `db.Create`, then per-kind registration: a
`Once` task parses `Spec` as RFC3339, rejects a past instant, and
launches the one-shot goroutine; a `Cron` task is handed to
`cron.AddFunc`; any other kind is rejected. Returns the result together
with the state as mutated so far (the created record is not rolled back
by later failures). -/
def AddTask (env : Env) (task : Task) (st : SchedState) :
    Except AddErr Task × SchedState :=
  if countByName st task.name > 0 then (.error (.dupName task.name), st)
  else
    match dbCreate st task with
    | .error _ => (.error .createFailed, st)
    | .ok (task', st') =>
      if task'.type = taskTypeOnce then
        match env.parseRFC3339 task'.spec with
        | none => (.error .parseTimeFailed, st')
        | some execTime =>
          if execTime - env.now < 0 then (.error .timeExpired, st')
          else (.ok task',
            { st' with pendingOnce := st'.pendingOnce ++ [task'.id] })
      else if task'.type = taskTypeCron then
        match env.cronNext task'.spec with
        | none => (.error .badCronSpec, st')
        | some nxt => (.ok task',
          { st' with
            entries := st'.entries ++ [⟨st'.nextEntryID, task'.id, nxt⟩],
            nextEntryID := st'.nextEntryID + 1 })
      else (.error (.badTaskType task'.type), st')

/-- The zero-value `model.TaskStats{TaskID: task.ID}` created when no
stats row exists yet. -/
def zeroStats (taskID : Nat) : TaskStats := { taskID := taskID }

/-- The stats-aggregation block of `ExecuteTask` (src/cmd/main.go lines
228–258): load-or-initialize, increment totals, recompute the average,
accumulate retries, branch on the log's outcome, and bump the timeout
counter when the error text contains the timeout marker. -/
def updateStats (prev : Option TaskStats) (taskID : Nat) (lg : TaskLog)
    (now : Int) : TaskStats :=
  let stats := prev.getD (zeroStats taskID)
  let stats := { stats with totalRuns := stats.totalRuns + 1 }
  let stats := { stats with totalDuration := stats.totalDuration + lg.duration }
  let stats := { stats with
    avgDuration := (stats.totalDuration : ℚ) / (stats.totalRuns : ℚ) }
  let stats := { stats with retryCount := stats.retryCount + lg.retryCount }
  let stats := { stats with updatedAt := now }
  let stats :=
    if lg.status = 1 then
      { stats with successRuns := stats.successRuns + 1,
                   lastSuccess := lg.endTime }
    else
      { stats with failedRuns := stats.failedRuns + 1,
                   lastFailure := lg.endTime, lastError := lg.error }
  if strContains lg.error timeoutMarker then
    { stats with timeoutCount := stats.timeoutCount + 1 }
  else stats

/-- `s.cron.Entry(cron.EntryID(id)).Next`: the library returns the entry
whose *entry id* matches, or the zero `Entry` (zero `Next`) when no
entry has that id. -/
def entryNextByEntryID (entries : List CronEntry) (id : Nat) : Int :=
  match entries.find? (fun e => e.id = id) with
  | some e => e.next
  | none => 0

/-- The next fire time of the entry actually registered for a task (the
closure added by `AddTask` for this task), `none` when the task has no
entry. -/
def entryNextOfTask (entries : List CronEntry) (taskID : Nat) : Option Int :=
  (entries.find? (fun e => e.taskID = taskID)).map (fun e => e.next)

/-- `if err := s.db.Save(task).Error; err != nil { log.Printf(...) }`:
the save error is only logged, so on failure the state is unchanged. -/
def applySave (st : SchedState) (task : Task) : SchedState :=
  match dbSave st task with
  | .ok st' => st'
  | .error _ => st

/-- Per-firing inputs `ExecuteTask` draws from the outside world: the
strategy outcomes of the attempts and the wall clock readings. -/
structure FireEnv where
  strategy : Nat → AttemptResult
  startTime : Int := 0
  endTime : Int := 0
  statsNow : Int := 0

/-- `Scheduler.ExecuteTask` (src/cmd/main.go lines 164–288): run the
retry loop, finalize and persist the log, upsert the stats row, then
save the task with `LastRunTime` set and either `Status = 0` (`Once`)
or `NextRunTime` re-read from `s.cron.Entry(cron.EntryID(task.ID))`
(any non-`Once` kind). Returns the new state, the saved task value and
the finalized log. -/
def ExecuteTask (fe : FireEnv) (task : Task) (st : SchedState) :
    SchedState × Task × TaskLog :=
  let res := runAttempts task fe.strategy
  let lg : TaskLog :=
    { taskID := task.id
      startTime := fe.startTime
      endTime := fe.endTime
      duration := fe.endTime - fe.startTime
      output := res.1
      retryCount := res.2.2
      status := if res.2.1 = none then 1 else 0
      error := (res.2.1).getD "" }
  let st := { st with logs := st.logs ++ [lg] }
  let prev := st.stats.find? (fun s => s.taskID = task.id)
  let newStats := updateStats prev task.id lg fe.statsNow
  let st := { st with stats :=
    match prev with
    | none => st.stats ++ [newStats]
    | some _ => st.stats.map (fun s => if s.taskID = task.id then newStats else s) }
  let task := { task with lastRunTime := lg.startTime }
  let task :=
    if task.type = taskTypeOnce then { task with status := 0 }
    else { task with nextRunTime := entryNextByEntryID st.entries task.id }
  (applySave st task, task, lg)

/-- The one-shot goroutine body reaching its deadline: if the task's
pending trigger is still armed, it is consumed and `ExecuteTask` runs
(no status check guards the call). Returns the new state and whether
the firing ran. -/
def fireOnce (fe : FireEnv) (task : Task) (st : SchedState) :
    SchedState × Bool :=
  if task.id ∈ st.pendingOnce then
    let st := { st with pendingOnce := st.pendingOnce.filter (fun i => i ≠ task.id) }
    ((ExecuteTask fe task st).1, true)
  else (st, false)

/-- `Scheduler.RemoveTask` (src/cmd/main.go lines 429–442): for a `Cron`
task remove the cron entry with *entry id* `task.ID`; then set
`Status = 0` and save. The pending one-shot goroutines are untouched. -/
def RemoveTask (task : Task) (st : SchedState) :
    Except Unit SchedState :=
  let st :=
    if task.type = taskTypeCron then
      { st with entries := st.entries.filter (fun e => e.id ≠ task.id) }
    else st
  dbSave st { task with status := 0 }

/-- The "设置默认值" block shared verbatim by `TaskService.CreateTask`
(lines 318–327) and `TaskService.UpdateTask` (lines 444–453):
`Timeout <= 0` falls back to 60, `RetryTimes < 0` to 3,
`RetryDelay < 0` to 5. -/
def setDefaults (task : Task) : Task :=
  let task := if task.timeout ≤ 0 then { task with timeout := 60 } else task
  let task := if task.retryTimes < 0 then { task with retryTimes := 3 } else task
  if task.retryDelay < 0 then { task with retryDelay := 5 } else task

/-- The callback-field validation block shared verbatim by
`TaskService.CreateTask` (lines 273–316) and `UpdateTask`
(lines 399–442); skipped entirely when `CallbackURL` is empty. -/
def validateCallback (env : Env) (task : Task) : Option SvcErr :=
  if task.callbackURL = "" then none
  else if ¬ env.urlParseOk task.callbackURL then some .badCallbackURL
  else if task.callbackMethod ≠ "" ∧ task.callbackMethod ≠ "GET" ∧
      task.callbackMethod ≠ "POST" then
    some (.badCallbackMethod task.callbackMethod)
  else if task.callbackHeaders ≠ "" ∧ ¬ env.jsonValid task.callbackHeaders then
    some .badCallbackHeaders
  else if task.callbackBody ≠ "" ∧ ¬ env.templateVarsOk task.callbackBody then
    some .badCallbackVar
  else none

/-- The "验证执行类型相关的字段" switch of `CreateTask` (lines 235–254)
and `UpdateTask` (lines 361–380): a `Shell` task needs a command; an
`HTTP` task needs a URL, gets `Method` defaulted to `GET`, and must
carry JSON-parsable headers. The Go switch has no default arm. -/
def validateExecFields (env : Env) (task : Task) : Except SvcErr Task :=
  if task.execType = execTypeShell then
    if task.command = "" then .error .emptyShellCommand else .ok task
  else if task.execType = execTypeHTTP then
    if task.command = "" then .error .emptyHTTPURL
    else
      let task := if task.method = "" then { task with method := "GET" } else task
      if task.headers ≠ "" ∧ ¬ env.jsonValid task.headers then .error .badHeaders
      else .ok task
  else .ok task

/-- The "验证执行时间" block of `CreateTask` (lines 257–271) and
`UpdateTask` (lines 383–397): a `Once` task parses `Spec` as RFC3339,
must not lie before now, and gets `NextRunTime` set to the parsed
instant; any other kind runs `utils.ParseCron` on `Spec`. -/
def validateSchedule (env : Env) (task : Task) : Except SvcErr Task :=
  if task.type = taskTypeOnce then
    match env.parseRFC3339 task.spec with
    | none => .error .badTimeFormat
    | some execTime =>
      if execTime < env.now then .error .timeBeforeNow
      else .ok { task with nextRunTime := execTime }
  else
    if ¬ env.cronStandardOk task.spec then .error .badCronExpr
    else .ok task

/-- The validation sequence shared verbatim by `TaskService.CreateTask`
(lines 224–316) and `UpdateTask` (lines 350–442): kind checks, per-kind
command/method/header checks, schedule check, then callback checks.
Returns the task as mutated by the defaults of `Method`/`NextRunTime`. -/
def svcValidate (env : Env) (task : Task) : Except SvcErr Task :=
  if task.type ≠ taskTypeOnce ∧ task.type ≠ taskTypeCron then
    .error (.badTaskType task.type)
  else if task.execType ≠ execTypeShell ∧ task.execType ≠ execTypeHTTP then
    .error (.badExecType task.execType)
  else
    match validateExecFields env task with
    | .error e => .error e
    | .ok task =>
      match validateSchedule env task with
      | .error e => .error e
      | .ok task =>
        match validateCallback env task with
        | some e => .error e
        | none => .ok task

/-- `TaskService.CreateTask` (internal/service/task.go lines 223–340):
validate, apply defaults, `db.Create`, then `scheduler.AddTask` (which
runs its own duplicate check and `db.Create` again). The state is
returned as mutated so far. -/
def CreateTask (env : Env) (task : Task) (st : SchedState) :
    Except SvcErr Task × SchedState :=
  match svcValidate env task with
  | .error e => (.error e, st)
  | .ok task =>
    let task := setDefaults task
    match dbCreate st task with
    | .error _ => (.error .createFailed, st)
    | .ok (task', st') =>
      match AddTask env task' st' with
      | (.error e, st'') => (.error (.schedulerAdd e), st'')
      | (.ok t, st'') => (.ok t, st'')

/-- `TaskService.UpdateTask` (internal/service/task.go lines 343–468):
look up the old record, validate, apply defaults, `db.Save`, and — when
the task is enabled — hand it to `scheduler.AddTask` again. -/
def UpdateTask (env : Env) (task : Task) (st : SchedState) :
    Except SvcErr Task × SchedState :=
  if ¬ st.tasks.any (fun t => t.id = task.id) then (.error .notFound, st)
  else
    match svcValidate env task with
    | .error e => (.error e, st)
    | .ok task =>
      let task := setDefaults task
      match dbSave st task with
      | .error _ => (.error .saveFailed, st)
      | .ok st' =>
        if task.status = 1 then
          match AddTask env task st' with
          | (.error e, st'') => (.error (.schedulerAdd e), st'')
          | (.ok t, st'') => (.ok t, st'')
        else (.ok task, st')

/-! ### Helper lemmas -/

theorem setDefaults_keeps (t : Task) :
    (setDefaults t).name = t.name ∧ (setDefaults t).id = t.id ∧
      (setDefaults t).status = t.status ∧ (setDefaults t).type = t.type := by
  simp only [setDefaults]
  split_ifs <;> simp

theorem validateExecFields_keeps (env : Env) (t t' : Task)
    (h : validateExecFields env t = Except.ok t') :
    t'.name = t.name ∧ t'.id = t.id ∧ t'.status = t.status ∧ t'.type = t.type := by
  simp only [validateExecFields] at h
  split_ifs at h <;> simp_all <;> subst h <;> simp

theorem validateSchedule_keeps (env : Env) (t t' : Task)
    (h : validateSchedule env t = Except.ok t') :
    t'.name = t.name ∧ t'.id = t.id ∧ t'.status = t.status ∧ t'.type = t.type := by
  simp only [validateSchedule] at h
  split at h
  · split at h
    · simp_all
    · split_ifs at h <;> simp_all <;> subst h <;> simp
  · split_ifs at h <;> simp_all

theorem validateCallback_none_of_empty (env : Env) (t : Task)
    (h : t.callbackURL = "") : validateCallback env t = none := by
  simp [validateCallback, h]

theorem svcValidate_keeps (env : Env) (t t' : Task)
    (h : svcValidate env t = Except.ok t') :
    t'.name = t.name ∧ t'.id = t.id ∧ t'.status = t.status ∧ t'.type = t.type := by
  simp only [svcValidate] at h
  split_ifs at h
  cases h1 : validateExecFields env t with
  | error e => simp only [h1] at h; exact Except.noConfusion h
  | ok t1 =>
    simp only [h1] at h
    cases h2 : validateSchedule env t1 with
    | error e => simp only [h2] at h; exact Except.noConfusion h
    | ok t2 =>
      simp only [h2] at h
      cases h3 : validateCallback env t2 with
      | some e => simp only [h3] at h; exact Except.noConfusion h
      | none =>
        simp only [h3, Except.ok.injEq] at h
        subst h
        have k1 := validateExecFields_keeps env t t1 h1
        have k2 := validateSchedule_keeps env t1 t2 h2
        exact ⟨k2.1.trans k1.1, k2.2.1.trans k1.2.1,
          k2.2.2.1.trans k1.2.2.1, k2.2.2.2.trans k1.2.2.2⟩

theorem runAttemptsAux_success (task : Task) (strategy : Nat → AttemptResult) :
    ∀ (m rem i : Nat) (out : String) (err : Option String) (rc : Int),
      m < rem →
      (∀ j, j < m → ((strategy (i + j)).err).isSome = true) →
      (strategy (i + m)).err = none →
      runAttemptsAux task strategy i rem out err rc =
        ((strategy (i + m)).output, none,
          if m = 0 then rc else Int.ofNat (i + m - 1)) := by
  intro m
  induction m with
  | zero =>
    intro rem i out err rc hlt _ hsucc
    match rem, hlt with
    | Nat.succ rem', _ =>
      rw [Nat.add_zero] at hsucc
      simp only [runAttemptsAux, hsucc]
      simp
  | succ m ih =>
    intro rem i out err rc hlt hfail hsucc
    match rem, hlt with
    | Nat.succ rem', _ =>
      have hf0 : ((strategy i).err).isSome = true := by
        have := hfail 0 (Nat.succ_pos m)
        rwa [Nat.add_zero] at this
      obtain ⟨e, he⟩ := Option.isSome_iff_exists.mp hf0
      simp only [runAttemptsAux, he]
      have hrec := ih rem' (i + 1) (strategy i).output
        (some (classifyErr task (strategy i))) (Int.ofNat i)
        (by omega)
        (fun j hj => by
          have := hfail (j + 1) (by omega)
          rwa [show i + (j + 1) = i + 1 + j by omega] at this)
        (by rwa [show i + 1 + m = i + (m + 1) by omega])
      rw [hrec, show i + 1 + m = i + (m + 1) by omega]
      rcases Nat.eq_zero_or_pos m with hm | hm
      · subst hm; simp
      · rw [if_neg (by omega), if_neg (by omega)]

theorem runAttemptsAux_allfail (task : Task) (strategy : Nat → AttemptResult) :
    ∀ (rem i : Nat) (out : String) (err : Option String) (rc : Int),
      0 < rem →
      (∀ j, j < rem → ((strategy (i + j)).err).isSome = true) →
      runAttemptsAux task strategy i rem out err rc =
        ((strategy (i + rem - 1)).output,
          some (classifyErr task (strategy (i + rem - 1))),
          Int.ofNat (i + rem - 1)) := by
  intro rem
  induction rem with
  | zero => intro i out err rc hpos; omega
  | succ rem' ih =>
    intro i out err rc _ hfail
    have hf0 : ((strategy i).err).isSome = true := by
      have := hfail 0 (Nat.succ_pos rem')
      rwa [Nat.add_zero] at this
    obtain ⟨e, he⟩ := Option.isSome_iff_exists.mp hf0
    simp only [runAttemptsAux, he]
    cases rem' with
    | zero => simp only [runAttemptsAux]; rw [show i + 1 - 1 = i by omega]
    | succ r2 =>
      have hrec := ih (i + 1) (strategy i).output
        (some (classifyErr task (strategy i))) (Int.ofNat i)
        (Nat.succ_pos r2)
        (fun j hj => by
          have := hfail (j + 1) (by omega)
          rwa [show i + (j + 1) = i + 1 + j by omega] at this)
      rw [hrec, show i + 1 + (r2 + 1) - 1 = i + (r2 + 1 + 1) - 1 by omega]

theorem runAttempts_success (task : Task) (strategy : Nat → AttemptResult)
    (k : Nat) (hk1 : 1 ≤ k) (hk2 : (k : Int) ≤ task.retryTimes + 1)
    (hfail : ∀ j, j < k - 1 → ((strategy j).err).isSome = true)
    (hsucc : (strategy (k - 1)).err = none) :
    runAttempts task strategy =
      ((strategy (k - 1)).output, none,
        if k = 1 then 0 else Int.ofNat (k - 2)) := by
  have hm : k - 1 < attemptsFor task.retryTimes := by
    unfold attemptsFor; omega
  have := runAttemptsAux_success task strategy (k - 1)
    (attemptsFor task.retryTimes) 0 "" none 0 hm
    (fun j hj => by have := hfail j hj; rwa [Nat.zero_add])
    (by rwa [Nat.zero_add])
  rw [runAttempts, this, Nat.zero_add]
  by_cases h1 : k = 1
  · rw [if_pos (by omega), if_pos h1]
  · have hx : k - 1 - 1 = k - 2 := by omega
    rw [if_neg (by omega), if_neg h1, hx]

theorem runAttempts_allfail (task : Task) (strategy : Nat → AttemptResult)
    (n : Nat) (hn : task.retryTimes = (n : Int))
    (hfail : ∀ j, j ≤ n → ((strategy j).err).isSome = true) :
    runAttempts task strategy =
      ((strategy n).output, some (classifyErr task (strategy n)),
        Int.ofNat n) := by
  have hrem : attemptsFor task.retryTimes = n + 1 := by
    unfold attemptsFor; omega
  have := runAttemptsAux_allfail task strategy (attemptsFor task.retryTimes)
    0 "" none 0 (by omega)
    (fun j hj => by
      have := hfail j (by omega)
      rwa [Nat.zero_add])
  rw [runAttempts, this, hrem, Nat.zero_add, show n + 1 - 1 = n by omega]

theorem leadsList_append (l r : List Char) : leadsList l (l ++ r) = true := by
  induction l with
  | nil => rfl
  | cons a as ih => simp [leadsList, ih]

theorem containsList_of_leads (sub l : List Char)
    (h : leadsList sub l = true) : containsList sub l = true := by
  cases l with
  | nil => simpa [containsList] using h
  | cons b bs => simp [containsList, h]

theorem strContains_timeoutMsg (n : Int) :
    strContains (timeoutMsg n) timeoutMarker = true := by
  unfold strContains timeoutMsg
  rw [String.data_append, String.data_append, String.data_append,
    List.append_assoc, List.append_assoc]
  exact containsList_of_leads _ _ (leadsList_append _ _)

theorem ExecuteTask_log (fe : FireEnv) (task : Task) (st : SchedState) :
    (ExecuteTask fe task st).2.2 =
      { taskID := task.id, startTime := fe.startTime, endTime := fe.endTime,
        duration := fe.endTime - fe.startTime,
        output := (runAttempts task fe.strategy).1,
        retryCount := (runAttempts task fe.strategy).2.2,
        status := if (runAttempts task fe.strategy).2.1 = none then 1 else 0,
        error := ((runAttempts task fe.strategy).2.1).getD "" } := rfl

theorem applySave_keeps (st : SchedState) (task : Task) :
    (applySave st task).logs = st.logs ∧ (applySave st task).stats = st.stats ∧
      (applySave st task).entries = st.entries ∧
      (applySave st task).pendingOnce = st.pendingOnce := by
  unfold applySave dbSave
  split
  next st' heq =>
    split at heq
    · exact Except.noConfusion heq
    · cases heq; exact ⟨rfl, rfl, rfl, rfl⟩
  next => exact ⟨rfl, rfl, rfl, rfl⟩

theorem ExecuteTask_logs (fe : FireEnv) (task : Task) (st : SchedState) :
    (ExecuteTask fe task st).1.logs =
      st.logs ++ [(ExecuteTask fe task st).2.2] := by
  simp only [ExecuteTask]
  rw [(applySave_keeps _ _).1]

theorem ExecuteTask_entries (fe : FireEnv) (task : Task) (st : SchedState) :
    (ExecuteTask fe task st).1.entries = st.entries := by
  simp only [ExecuteTask]
  rw [(applySave_keeps _ _).2.2.1]

theorem ExecuteTask_pendingOnce (fe : FireEnv) (task : Task) (st : SchedState) :
    (ExecuteTask fe task st).1.pendingOnce = st.pendingOnce := by
  simp only [ExecuteTask]
  rw [(applySave_keeps _ _).2.2.2]

theorem ExecuteTask_congr (fe fe' : FireEnv) (task : Task) (st : SchedState)
    (h : runAttempts task fe'.strategy = runAttempts task fe.strategy)
    (h1 : fe'.startTime = fe.startTime) (h2 : fe'.endTime = fe.endTime)
    (h3 : fe'.statsNow = fe.statsNow) :
    ExecuteTask fe' task st = ExecuteTask fe task st := by
  simp only [ExecuteTask, h, h1, h2, h3]

theorem dbSave_ok_keeps (st : SchedState) (task : Task) (st' : SchedState)
    (h : dbSave st task = Except.ok st') :
    st'.logs = st.logs ∧ st'.stats = st.stats ∧ st'.entries = st.entries ∧
      st'.pendingOnce = st.pendingOnce ∧
      st'.tasks = st.tasks.map (fun t => if t.id = task.id then task else t) := by
  unfold dbSave at h
  split_ifs at h
  cases h
  exact ⟨rfl, rfl, rfl, rfl, rfl⟩

theorem updateStats_timeoutCount (prev : Option TaskStats) (taskID : Nat)
    (lg : TaskLog) (now : Int) :
    (updateStats prev taskID lg now).timeoutCount =
      (prev.getD (zeroStats taskID)).timeoutCount +
        (if strContains lg.error timeoutMarker then 1 else 0) := by
  simp only [updateStats]
  split_ifs <;> simp

theorem countByName_pos (st : SchedState) (name : String) (t : Task)
    (ht : t ∈ st.tasks) (hn : t.name = name) : 0 < countByName st name := by
  unfold countByName
  rw [List.length_pos]
  intro hnil
  have hmem : t ∈ st.tasks.filter (fun u => u.name = name) :=
    List.mem_filter.mpr ⟨ht, by simp [hn]⟩
  rw [hnil] at hmem
  exact List.not_mem_nil t hmem

theorem AddTask_dup (env : Env) (task : Task) (st : SchedState)
    (h : 0 < countByName st task.name) :
    AddTask env task st = (Except.error (.dupName task.name), st) := by
  simp only [AddTask]
  rw [if_pos h]

instance {e a : Type} [DecidableEq e] [DecidableEq a] :
    DecidableEq (Except e a) := fun x y =>
  match x, y with
  | .ok u, .ok v =>
    if h : u = v then .isTrue (by rw [h])
    else .isFalse (by intro hc; cases hc; exact h rfl)
  | .error u, .error v =>
    if h : u = v then .isTrue (by rw [h])
    else .isFalse (by intro hc; cases hc; exact h rfl)
  | .ok _, .error _ => .isFalse (by intro hc; exact Except.noConfusion hc)
  | .error _, .ok _ => .isFalse (by intro hc; exact Except.noConfusion hc)

/-! ### Claim theorems -/

/-- The scheduler state of a freshly booted process: empty store, empty
cron registry, auto-increment counters at 1. -/
def emptyState : SchedState := {}

/-- A concrete environment for the closed scenarios: clock at 0, every
RFC3339 spec parses to instant 100, every cron spec parses with next
fire time 5, headers always valid JSON. -/
def env0 : Env where
  now := 0
  parseRFC3339 := fun _ => some 100
  cronNext := fun _ => some 5
  cronStandardOk := fun _ => true
  jsonValid := fun _ => true
  urlParseOk := fun _ => true
  templateVarsOk := fun _ => true

/-- A well-formed `Cron`/`Shell` job. -/
def cronTask0 : Task :=
  { name := "t", type := taskTypeCron, execType := execTypeShell,
    command := "c", spec := "0 * * * * *" }

/-- A well-formed `Once`/`Shell` job. -/
def onceTask0 : Task :=
  { name := "o", type := taskTypeOnce, execType := execTypeShell,
    command := "c", spec := "2030-01-01T00:00:00Z" }

/-- **C7 (counterexample).** The claim says a non-positive retry count
becomes 3 and a non-positive retry delay becomes 5 before persisting;
but `CreateTask` persists a job submitted with `RetryTimes = 0` and
`RetryDelay = 0` unchanged (the code tests `< 0`, not `<= 0`). -/
theorem c7_counterexample :
    ((CreateTask env0
        { cronTask0 with timeout := 0, retryTimes := 0, retryDelay := 0 }
        emptyState).2.tasks.map Task.retryTimes = [0]) ∧
      ((CreateTask env0
        { cronTask0 with timeout := 0, retryTimes := 0, retryDelay := 0 }
        emptyState).2.tasks.map Task.retryDelay = [0]) ∧
      (0 : Int) ≠ 3 ∧ (0 : Int) ≠ 5 := by decide

/-- **C7 (amended).** The default block applied by `CreateTask` and
`UpdateTask` before persisting maps a non-positive `Timeout` to 60, a
strictly negative `RetryTimes` to 3 and a strictly negative
`RetryDelay` to 5; zero retry values are kept unchanged. -/
theorem c7_defaults_exact (t : Task) :
    ((setDefaults t).timeout = if t.timeout ≤ 0 then 60 else t.timeout) ∧
      ((setDefaults t).retryTimes =
        if t.retryTimes < 0 then 3 else t.retryTimes) ∧
      ((setDefaults t).retryDelay =
        if t.retryDelay < 0 then 5 else t.retryDelay) := by
  simp only [setDefaults]
  split_ifs <;> simp_all

/-- **C8.** After every stats update the aggregate satisfies
`AvgDuration = TotalDuration / TotalRuns` (exact division), and a
missing stats row is initialized to the zero aggregate of the job
before the update is applied, so the invariant holds after each firing
of every run sequence. -/
theorem c8_avg_invariant (prev : Option TaskStats) (taskID : Nat)
    (lg : TaskLog) (now : Int) :
    ((updateStats prev taskID lg now).avgDuration =
      ((updateStats prev taskID lg now).totalDuration : ℚ) /
        ((updateStats prev taskID lg now).totalRuns : ℚ)) ∧
      updateStats none taskID lg now =
        updateStats (some (zeroStats taskID)) taskID lg now := by
  refine ⟨?_, rfl⟩
  simp only [updateStats]
  split_ifs <;> rfl

/-- **C1 (code evaluated at the failing input).** On a fresh store, a
valid unique-named `Cron` job submitted to `TaskService.CreateTask` is
persisted by the service, after which `Scheduler.AddTask`'s uniqueness
check sees that very record and rejects the job as a duplicate of
itself: the call returns an error, exactly one record is persisted, and
no trigger is installed — contradicting the claim that it returns no
error and installs a trigger. -/
theorem c1_create_fresh_job_still_errors :
    (CreateTask env0 cronTask0 emptyState).1 =
        Except.error (.schedulerAdd (.dupName "t")) ∧
      (CreateTask env0 cronTask0 emptyState).2.tasks.map Task.name = ["t"] ∧
      (CreateTask env0 cronTask0 emptyState).2.entries = [] ∧
      (CreateTask env0 cronTask0 emptyState).2.pendingOnce = [] := by
  decide

/-- **C4.** A job whose name already exists in the store is rejected by
`CreateTask` with an error (either the service's own `db.Create` hits
the unique index over `name`, or validation fails first), no trigger is
installed and the store is left entirely unchanged. -/
theorem c4_duplicate_name_rejected (env : Env) (task : Task)
    (st : SchedState) (hdup : ∃ t ∈ st.tasks, t.name = task.name) :
    (∃ e, (CreateTask env task st).1 = Except.error e) ∧
      (CreateTask env task st).2 = st := by
  obtain ⟨t0, ht0, hname⟩ := hdup
  simp only [CreateTask]
  cases hv : svcValidate env task with
  | error e => exact ⟨⟨e, rfl⟩, rfl⟩
  | ok t' =>
    have hn : (setDefaults t').name = task.name :=
      ((setDefaults_keeps t').1).trans (svcValidate_keeps env task t' hv).1
    have hany : (st.tasks.any fun t => t.name = (setDefaults t').name) = true :=
      List.any_eq_true.mpr ⟨t0, ht0, by simp [hn, hname]⟩
    simp only [dbCreate, hany]
    exact ⟨⟨.createFailed, rfl⟩, rfl⟩

/-- **C4 (witness).** A store holding a job named `"t"` rejects a fresh
submission named `"t"` and stays unchanged. -/
theorem c4_duplicate_name_rejected_witness :
    (∃ e, (CreateTask env0 cronTask0
        { tasks := [{ cronTask0 with id := 1 }], nextTaskID := 2 }).1 =
      Except.error e) ∧
      (CreateTask env0 cronTask0
        { tasks := [{ cronTask0 with id := 1 }], nextTaskID := 2 }).2 =
        { tasks := [{ cronTask0 with id := 1 }], nextTaskID := 2 } :=
  c4_duplicate_name_rejected env0 cronTask0
    { tasks := [{ cronTask0 with id := 1 }], nextTaskID := 2 }
    ⟨{ cronTask0 with id := 1 }, by decide, by decide⟩

/-- A strategy that fails on the first attempt and succeeds on the
second (success at `k = 2`). -/
def failThenOk : Nat → AttemptResult := fun i =>
  if i = 0 then { err := some "boom" } else { output := "ok" }

/-- A strategy that fails on every attempt with a distinct error. -/
def alwaysFail : Nat → AttemptResult := fun i =>
  { output := toString i, err := some ("e" ++ toString i) }

/-- **C2 (counterexample).** With `retryTimes = 3` and a strategy that
fails once then succeeds on attempt `k = 2`, the log has `Success`
status but `RetryCount = 0`, not `k − 1 = 1`: the loop records
`RetryCount = i` only on failing iterations, so a success after
failures reports one retry too few. -/
theorem c2_counterexample :
    ((ExecuteTask { strategy := failThenOk }
        { cronTask0 with retryTimes := 3 } emptyState).2.2.status = 1) ∧
      ((ExecuteTask { strategy := failThenOk }
        { cronTask0 with retryTimes := 3 } emptyState).2.2.retryCount = 0) ∧
      (0 : Int) ≠ 2 - 1 := by decide

/-- **C2 (amended).** If the strategy fails on the first `k − 1`
attempts and succeeds on attempt `k ≤ retryTimes + 1`, `ExecuteTask`
makes no further attempts and the log has `Success` status, but
`RetryCount` is `k − 2` (0 for `k = 1`): the index of the last failed
attempt, not the `k − 1` retries actually consumed. -/
theorem c2_amended (fe : FireEnv) (task : Task) (st : SchedState) (k : Nat)
    (hk1 : 1 ≤ k) (hk2 : (k : Int) ≤ task.retryTimes + 1)
    (hfail : ∀ j, j < k - 1 → ((fe.strategy j).err).isSome = true)
    (hsucc : (fe.strategy (k - 1)).err = none) :
    ((ExecuteTask fe task st).2.2.status = 1) ∧
      ((ExecuteTask fe task st).2.2.retryCount =
        if k = 1 then 0 else Int.ofNat (k - 2)) ∧
      (∀ fe' : FireEnv,
        fe'.startTime = fe.startTime → fe'.endTime = fe.endTime →
        fe'.statsNow = fe.statsNow →
        (∀ j, j ≤ k - 1 → fe'.strategy j = fe.strategy j) →
        ExecuteTask fe' task st = ExecuteTask fe task st) := by
  have hr := runAttempts_success task fe.strategy k hk1 hk2 hfail hsucc
  refine ⟨?_, ?_, ?_⟩
  · rw [ExecuteTask_log]
    simp [hr]
  · rw [ExecuteTask_log]
    simp [hr]
  · intro fe' h1 h2 h3 hagree
    have hr' := runAttempts_success task fe'.strategy k hk1 hk2
      (fun j hj => by rw [hagree j (by omega)]; exact hfail j hj)
      (by rw [hagree (k - 1) (Nat.le_refl _)]; exact hsucc)
    refine ExecuteTask_congr fe fe' task st ?_ h1 h2 h3
    rw [hr, hr', hagree (k - 1) (Nat.le_refl _)]

/-- **C2 (witness).** The amended statement at `k = 2`,
`retryTimes = 3`, with `failThenOk`. -/
theorem c2_amended_witness :
    ((ExecuteTask { strategy := failThenOk }
        { cronTask0 with retryTimes := 3 } emptyState).2.2.status = 1) ∧
      ((ExecuteTask { strategy := failThenOk }
        { cronTask0 with retryTimes := 3 } emptyState).2.2.retryCount =
        if 2 = 1 then 0 else Int.ofNat (2 - 2)) ∧
      (∀ fe' : FireEnv,
        fe'.startTime = ({ strategy := failThenOk } : FireEnv).startTime →
        fe'.endTime = ({ strategy := failThenOk } : FireEnv).endTime →
        fe'.statsNow = ({ strategy := failThenOk } : FireEnv).statsNow →
        (∀ j, j ≤ 2 - 1 → fe'.strategy j = failThenOk j) →
        ExecuteTask fe' { cronTask0 with retryTimes := 3 } emptyState =
          ExecuteTask { strategy := failThenOk }
            { cronTask0 with retryTimes := 3 } emptyState) :=
  c2_amended { strategy := failThenOk } { cronTask0 with retryTimes := 3 }
    emptyState 2 (by decide) (by decide)
    (by intro j hj; have hj0 : j = 0 := by omega
        subst hj0; decide)
    (by decide)

/-- **C3.** With `retryTimes = n` and a strategy failing on every
attempt, `ExecuteTask` consults exactly the attempts `0..n` (any firing
agreeing on those attempts is identical), and appends a single final
log with `Failure` status, `RetryCount = n`, and error text equal to
the last attempt's (classified) error. -/
theorem c3_always_fail (fe : FireEnv) (task : Task) (st : SchedState)
    (n : Nat) (hn : task.retryTimes = (n : Int))
    (hfail : ∀ j, j ≤ n → ((fe.strategy j).err).isSome = true) :
    ((ExecuteTask fe task st).1.logs =
        st.logs ++ [(ExecuteTask fe task st).2.2]) ∧
      ((ExecuteTask fe task st).2.2.status = 0) ∧
      ((ExecuteTask fe task st).2.2.retryCount = Int.ofNat n) ∧
      ((ExecuteTask fe task st).2.2.error =
        classifyErr task (fe.strategy n)) ∧
      (∀ fe' : FireEnv,
        fe'.startTime = fe.startTime → fe'.endTime = fe.endTime →
        fe'.statsNow = fe.statsNow →
        (∀ j, j ≤ n → fe'.strategy j = fe.strategy j) →
        ExecuteTask fe' task st = ExecuteTask fe task st) := by
  have hr := runAttempts_allfail task fe.strategy n hn hfail
  refine ⟨ExecuteTask_logs fe task st, ?_, ?_, ?_, ?_⟩
  · rw [ExecuteTask_log]
    simp [hr]
  · rw [ExecuteTask_log]
    simp [hr]
  · rw [ExecuteTask_log]
    simp [hr]
  · intro fe' h1 h2 h3 hagree
    have hr' := runAttempts_allfail task fe'.strategy n hn
      (fun j hj => by rw [hagree j hj]; exact hfail j hj)
    refine ExecuteTask_congr fe fe' task st ?_ h1 h2 h3
    rw [hr, hr', hagree n (Nat.le_refl n)]

/-- **C3 (witness).** The statement at `n = 2` with `alwaysFail`. -/
theorem c3_always_fail_witness :
    ((ExecuteTask { strategy := alwaysFail }
        { cronTask0 with retryTimes := 2 } emptyState).1.logs =
        emptyState.logs ++ [(ExecuteTask { strategy := alwaysFail }
          { cronTask0 with retryTimes := 2 } emptyState).2.2]) ∧
      ((ExecuteTask { strategy := alwaysFail }
        { cronTask0 with retryTimes := 2 } emptyState).2.2.status = 0) ∧
      ((ExecuteTask { strategy := alwaysFail }
        { cronTask0 with retryTimes := 2 } emptyState).2.2.retryCount =
        Int.ofNat 2) ∧
      ((ExecuteTask { strategy := alwaysFail }
        { cronTask0 with retryTimes := 2 } emptyState).2.2.error =
        classifyErr { cronTask0 with retryTimes := 2 } (alwaysFail 2)) ∧
      (∀ fe' : FireEnv,
        fe'.startTime = ({ strategy := alwaysFail } : FireEnv).startTime →
        fe'.endTime = ({ strategy := alwaysFail } : FireEnv).endTime →
        fe'.statsNow = ({ strategy := alwaysFail } : FireEnv).statsNow →
        (∀ j, j ≤ 2 → fe'.strategy j = alwaysFail j) →
        ExecuteTask fe' { cronTask0 with retryTimes := 2 } emptyState =
          ExecuteTask { strategy := alwaysFail }
            { cronTask0 with retryTimes := 2 } emptyState) :=
  c3_always_fail { strategy := alwaysFail } { cronTask0 with retryTimes := 2 }
    emptyState 2 (by decide)
    (by intro j hj; interval_cases j <;> decide)

/-- A firing environment whose strategy always succeeds at once. -/
def fe0 : FireEnv :=
  { strategy := fun _ => {}, startTime := 1, endTime := 2, statsNow := 3 }

/-- A reachable two-job state: the `Once` job gets task id 1 (one-shot
trigger, no cron entry), then the `Cron` job gets task id 2 while
`cron.AddFunc` hands out entry id 1 for it. -/
def c5State : SchedState :=
  (AddTask env0 cronTask0 (AddTask env0 onceTask0 emptyState).2).2

/-- **C5 (counterexample).** In `c5State` the `Cron` job with task id 2
owns the trigger entry with next fire time 5, but after a firing
`ExecuteTask` stores `NextRunTime = 0`: it reads
`cron.Entry(EntryID(task.ID))`, i.e. the entry whose *entry id* is 2 —
no such entry exists, so the zero entry's `Next` is stored instead of
the job's own next firing time. -/
theorem c5_counterexample :
    (c5State.tasks.map Task.id = [1, 2]) ∧
      c5State.entries = [⟨1, 2, 5⟩] ∧
      entryNextOfTask c5State.entries 2 = some 5 ∧
      ((ExecuteTask fe0 { cronTask0 with id := 2 }
        c5State).2.1.nextRunTime = 0) ∧
      (0 : Int) ≠ 5 := by decide

/-- **C5 (amended).** After a firing of any non-`Once` job,
`ExecuteTask` stores as `NextRunTime` the `Next` field of the cron
registry entry whose *entry id* numerically equals the task's id (the
zero time when no such entry exists) — which is the job's own trigger
entry only when the two id sequences happen to coincide. The registry
itself is unchanged by the firing. -/
theorem c5_amended (fe : FireEnv) (task : Task) (st : SchedState)
    (h : task.type ≠ taskTypeOnce) :
    ((ExecuteTask fe task st).2.1.nextRunTime =
        entryNextByEntryID st.entries task.id) ∧
      (ExecuteTask fe task st).1.entries = st.entries := by
  refine ⟨?_, ExecuteTask_entries fe task st⟩
  simp [ExecuteTask, h]

/-- **C5 (witness).** The amended statement for the firing of the
`Cron` job of `c5State`. -/
theorem c5_amended_witness :
    ((ExecuteTask fe0 { cronTask0 with id := 2 } c5State).2.1.nextRunTime =
        entryNextByEntryID c5State.entries
          ({ cronTask0 with id := 2 } : Task).id) ∧
      (ExecuteTask fe0 { cronTask0 with id := 2 } c5State).1.entries =
        c5State.entries :=
  c5_amended fe0 { cronTask0 with id := 2 } c5State (by decide)

/-- The `Once` job as it sits in the store after registration. -/
def onceTask1 : Task := { onceTask0 with id := 1 }

/-- The state with the `Once` job registered and its one-shot trigger
pending. -/
def c6State : SchedState := (AddTask env0 onceTask0 emptyState).2

/-- `c6State` after `RemoveTask` on the `Once` job. -/
def c6Removed : SchedState :=
  match RemoveTask onceTask1 c6State with
  | .ok st => st
  | .error _ => c6State

/-- **C6 (counterexample).** The `Once` job's trigger is pending; after
`RemoveTask` it is *still* pending (`RemoveTask` only removes cron
entries and flips `Status`), and when the one-shot goroutine's delay
elapses the firing runs and produces a log — `ExecuteTask` is invoked
despite the earlier removal. -/
theorem c6_counterexample :
    c6State.pendingOnce = [1] ∧
      RemoveTask onceTask1 c6State = Except.ok c6Removed ∧
      c6Removed.pendingOnce = [1] ∧
      (fireOnce fe0 onceTask1 c6Removed).2 = true ∧
      (fireOnce fe0 onceTask1 c6Removed).1.logs.length = 1 := by decide

/-- **C6 (amended).** `RemoveTask` never disarms a pending one-shot
trigger: the set of pending `Once` firings is unchanged, and if the
job's trigger was pending before the removal it still fires afterwards
(`ExecuteTask` runs). -/
theorem c6_amended (task : Task) (st st' : SchedState)
    (h : RemoveTask task st = Except.ok st') :
    st'.pendingOnce = st.pendingOnce ∧
      ∀ fe : FireEnv, task.id ∈ st.pendingOnce →
        (fireOnce fe task st').2 = true := by
  have hp : st'.pendingOnce = st.pendingOnce := by
    unfold RemoveTask at h
    rw [(dbSave_ok_keeps _ _ _ h).2.2.2.1]
    split <;> rfl
  refine ⟨hp, fun fe hmem => ?_⟩
  unfold fireOnce
  rw [if_pos (show task.id ∈ st'.pendingOnce by rw [hp]; exact hmem)]

/-- **C6 (witness).** The amended statement on the concrete `Once`
job. -/
theorem c6_amended_witness :
    c6Removed.pendingOnce = c6State.pendingOnce ∧
      ∀ fe : FireEnv, onceTask1.id ∈ c6State.pendingOnce →
        (fireOnce fe onceTask1 c6Removed).2 = true :=
  c6_amended onceTask1 c6State c6Removed (by decide)

/-- A strategy that times out on the first attempt and succeeds on the
second. -/
def timeoutThenOk : Nat → AttemptResult := fun i =>
  if i = 0 then { err := some "slow", timedOut := true }
  else { output := "ok" }

/-- A strategy that times out on every attempt. -/
def alwaysTimeout : Nat → AttemptResult := fun _ =>
  { err := some "slow", timedOut := true }

/-- **C9 (counterexample).** A firing in which attempt 0 hits its
deadline (`timedOut = true`) but attempt 1 succeeds ends with a
`Success` log, and the stats row after the firing has
`TimeoutCount = 0`, not incremented exactly once as claimed: the
counter is driven by the *final* log error text only. -/
theorem c9_counterexample :
    ((timeoutThenOk 0).timedOut = true) ∧
      ((ExecuteTask { strategy := timeoutThenOk }
        { cronTask0 with retryTimes := 3, timeout := 7 }
        emptyState).2.2.status = 1) ∧
      ((ExecuteTask { strategy := timeoutThenOk }
        { cronTask0 with retryTimes := 3, timeout := 7 }
        emptyState).1.stats.map (fun s => s.timeoutCount) = [0]) := by
  decide

/-- **C9 (amended).** An attempt whose deadline elapses has its error
replaced by the timeout message, which reports the configured bound and
contains the timeout marker; when the *last* attempt of a firing times
out, the final log error is that message and the stats update for the
firing increments `TimeoutCount` by exactly one. (A timeout on an
earlier attempt followed by a success leaves `TimeoutCount` unchanged,
as the counterexample shows.) -/
theorem c9_amended (fe : FireEnv) (task : Task) (st : SchedState) (n : Nat)
    (hn : task.retryTimes = (n : Int))
    (hfail : ∀ j, j ≤ n → ((fe.strategy j).err).isSome = true)
    (hlast : (fe.strategy n).timedOut = true) :
    ((ExecuteTask fe task st).2.2.error = timeoutMsg task.timeout) ∧
      (strContains (ExecuteTask fe task st).2.2.error timeoutMarker
        = true) ∧
      (∀ prev : Option TaskStats,
        (updateStats prev task.id (ExecuteTask fe task st).2.2
            fe.statsNow).timeoutCount =
          (prev.getD (zeroStats task.id)).timeoutCount + 1) := by
  have hr := runAttempts_allfail task fe.strategy n hn hfail
  have herr : (ExecuteTask fe task st).2.2.error = timeoutMsg task.timeout := by
    rw [ExecuteTask_log]
    simp [hr, classifyErr, hlast]
  refine ⟨herr, ?_, ?_⟩
  · rw [herr]
    exact strContains_timeoutMsg task.timeout
  · intro prev
    rw [updateStats_timeoutCount, herr,
      if_pos (strContains_timeoutMsg task.timeout)]

/-- **C9 (witness).** The amended statement with every attempt timing
out, `retryTimes = 1`, `timeout = 7`. -/
theorem c9_amended_witness :
    ((ExecuteTask { strategy := alwaysTimeout }
        { cronTask0 with retryTimes := 1, timeout := 7 }
        emptyState).2.2.error =
      timeoutMsg ({ cronTask0 with retryTimes := 1, timeout := 7 } : Task).timeout) ∧
      (strContains (ExecuteTask { strategy := alwaysTimeout }
        { cronTask0 with retryTimes := 1, timeout := 7 }
        emptyState).2.2.error timeoutMarker = true) ∧
      (∀ prev : Option TaskStats,
        (updateStats prev
            ({ cronTask0 with retryTimes := 1, timeout := 7 } : Task).id
            (ExecuteTask { strategy := alwaysTimeout }
              { cronTask0 with retryTimes := 1, timeout := 7 }
              emptyState).2.2
            ({ strategy := alwaysTimeout } : FireEnv).statsNow).timeoutCount =
          (prev.getD (zeroStats
            ({ cronTask0 with retryTimes := 1, timeout := 7 } : Task).id)).timeoutCount
            + 1) :=
  c9_amended { strategy := alwaysTimeout }
    { cronTask0 with retryTimes := 1, timeout := 7 } emptyState 1
    (by decide)
    (by intro j hj; interval_cases j <;> decide)
    (by decide)

/-- **C10.** Updating an enabled (`Status = 1`) job that passes
validation always fails: `UpdateTask` first persists the modified
record via `db.Save` and then re-registers it through
`Scheduler.AddTask`, whose uniqueness check counts the row just saved
and rejects the job as a duplicate of itself. The error is returned,
no trigger is installed, and the modified record nevertheless remains
in the store (the update is not atomic with respect to the error).
`hother` rules out a rename onto a *different* existing job, which
would make the save itself fail on the unique index instead. -/
theorem c10_update_enabled_always_errors (env : Env) (task t' : Task)
    (st : SchedState)
    (hin : ∃ t ∈ st.tasks, t.id = task.id)
    (hv : svcValidate env task = Except.ok t')
    (hstatus : task.status = 1)
    (hother : ∀ t ∈ st.tasks, t.id ≠ task.id → t.name ≠ task.name) :
    ((UpdateTask env task st).1 =
        Except.error (.schedulerAdd (.dupName task.name))) ∧
      ((UpdateTask env task st).2.tasks =
        st.tasks.map (fun t => if t.id = task.id then setDefaults t' else t)) ∧
      (setDefaults t' ∈ (UpdateTask env task st).2.tasks) ∧
      ((UpdateTask env task st).2.entries = st.entries) ∧
      ((UpdateTask env task st).2.pendingOnce = st.pendingOnce) := by
  obtain ⟨t0, ht0, hid0⟩ := hin
  have k := svcValidate_keeps env task t' hv
  have sdk := setDefaults_keeps t'
  have hid : (setDefaults t').id = task.id := sdk.2.1.trans k.2.1
  have hnm : (setDefaults t').name = task.name := sdk.1.trans k.1
  have hstat : (setDefaults t').status = 1 :=
    sdk.2.2.1.trans (k.2.2.1.trans hstatus)
  have hany : (st.tasks.any fun t => t.id = task.id) = true :=
    List.any_eq_true.mpr ⟨t0, ht0, by simp [hid0]⟩
  have hneg : ¬ ((st.tasks.any fun t =>
      t.id ≠ (setDefaults t').id ∧ t.name = (setDefaults t').name) = true) := by
    simp only [List.any_eq_true, decide_eq_true_eq]
    rintro ⟨t, ht, hne, hnm2⟩
    rw [hid] at hne
    rw [hnm] at hnm2
    exact hother t ht hne hnm2
  simp only [UpdateTask, hv]
  rw [if_neg (by simp [hany])]
  cases hd : dbSave st (setDefaults t') with
  | error e =>
    exfalso
    unfold dbSave at hd
    split_ifs at hd
  | ok st2 =>
    have hk := dbSave_ok_keeps st (setDefaults t') st2 hd
    have hmem : setDefaults t' ∈ st2.tasks := by
      rw [hk.2.2.2.2]
      exact List.mem_map.mpr ⟨t0, ht0, by rw [hid, if_pos hid0]⟩
    have hcount : 0 < countByName st2 (setDefaults t').name :=
      countByName_pos st2 (setDefaults t').name (setDefaults t') hmem rfl
    simp only [hd, if_pos hstat, AddTask_dup env (setDefaults t') st2 hcount]
    refine ⟨by rw [hnm], ?_, hmem, hk.2.2.1, hk.2.2.2.1⟩
    rw [hk.2.2.2.2]
    apply List.map_congr_left
    intro t ht
    rw [hid]

/-- The enabled job as submitted to `UpdateTask` (same id, new
description). -/
def updTask : Task := { cronTask0 with id := 1, description := "new" }

/-- A store holding the enabled job with id 1. -/
def st10 : SchedState :=
  { tasks := [{ cronTask0 with id := 1 }], nextTaskID := 2 }

/-- **C10 (witness).** The statement on a one-row store. -/
theorem c10_update_enabled_always_errors_witness :
    ((UpdateTask env0 updTask st10).1 =
        Except.error (.schedulerAdd (.dupName updTask.name))) ∧
      ((UpdateTask env0 updTask st10).2.tasks =
        st10.tasks.map
          (fun t => if t.id = updTask.id then setDefaults updTask else t)) ∧
      (setDefaults updTask ∈ (UpdateTask env0 updTask st10).2.tasks) ∧
      ((UpdateTask env0 updTask st10).2.entries = st10.entries) ∧
      ((UpdateTask env0 updTask st10).2.pendingOnce = st10.pendingOnce) :=
  c10_update_enabled_always_errors env0 updTask updTask st10
    ⟨{ cronTask0 with id := 1 }, by decide, by decide⟩
    (by decide) (by decide) (by decide)

end Happx1
